import Mathlib

/-!
Verification of an asynchronous TCP port scanner (`src/main.rs`).

The program parses a port range `[start_port, end_port)` from the command
line, spawns one asynchronous `scan` task per port, each of which attempts a
TCP connection and on success prints a progress marker and sends the port
number through an mpsc channel; the main task drops its own sender, drains
the channel until it is exhausted, sorts the collected ports and prints one
`"<port> is open"` line per port after a blank separator line.

The embedding below abstracts the network by a predicate
`isOpen : Nat → Bool` stating whether `TcpStream::connect(addr:port)`
succeeds, and models stdout as a list of written strings (each `println!`
contributes its text followed by a newline character).
-/

namespace PortScanner

/-- `const MAX: u16 = 65535;` -/
def MAX : Nat := 65535

/-- `fn start_port_guard(input: &u16) -> bool { *input > 0 }` -/
def start_port_guard (input : Nat) : Bool := decide (input > 0)

/-- `fn end_port_guard(input: &u16) -> bool { *input < MAX }` -/
def end_port_guard (input : Nat) : Bool := decide (input < MAX)

/-- The bpaf argument layer for `--start`: a supplied value is accepted only
if it passes `start_port_guard`; when the flag is omitted the fallback `1`
is used (the fallback bypasses the guard). -/
def parse_start_port : Option Nat → Option Nat
  | some v => if start_port_guard v then some v else none
  | none => some 1

/-- The bpaf argument layer for `--end`: a supplied value is accepted only
if it passes `end_port_guard`; when the flag is omitted the fallback `MAX`
is used (the fallback bypasses the guard). -/
def parse_end_port : Option Nat → Option Nat
  | some v => if end_port_guard v then some v else none
  | none => some MAX

/-- `async fn scan(tx: Sender<u16>, port: u16, addr: IpAddr)`: on a
successful connect it prints `"."` with `println!` (so a dot followed by a
newline), flushes, and sends `port` on the channel; on any connection error
it does nothing.  The result is the pair (stdout writes, channel sends). -/
def scan (isOpen : Nat → Bool) (port : Nat) : List String × List Nat :=
  if isOpen port then ([".\n"], [port]) else ([], [])

/-- The ports iterated by `for i in opts.start_port..opts.end_port`,
one spawned task per element. -/
def spawnedPorts (start_port end_port : Nat) : List Nat :=
  List.range' start_port (end_port - start_port)

/-- The channel values produced by all spawned probes, in spawn order. -/
def collectedPorts (isOpen : Nat → Bool) (start_port end_port : Nat) : List Nat :=
  ((spawnedPorts start_port end_port).map (fun p => (scan isOpen p).2)).flatten

/-- The progress markers written by all spawned probes, in spawn order
(concurrent execution may permute them; each successful probe contributes
exactly the string `".\n"`). -/
def progressOutput (isOpen : Nat → Bool) (start_port end_port : Nat) : List String :=
  ((spawnedPorts start_port end_port).map (fun p => (scan isOpen p).1)).flatten

/-- `out.sort()` on the collected vector: ascending numeric sort. -/
def sortPorts (l : List Nat) : List Nat := List.insertionSort (· ≤ ·) l

/-- Lines 93–98 of `main`: `println!("")`, `out.sort()`, then
`println!("{} is open", v)` for each collected port. -/
def report (out : List Nat) : List String :=
  "\n" :: (sortPorts out).map (fun v => s!"{v} is open\n")

/-- The whole stdout of one run: the progress phase followed by the report
phase. -/
def runOutput (isOpen : Nat → Bool) (start_port end_port : Nat) : List String :=
  progressOutput isOpen start_port end_port ++
    report (collectedPorts isOpen start_port end_port)

/-- State of the mpsc channel together with the collector:
the pending producers (each spawned probe's list of values still to send),
the values sent but not yet received, and the values received so far by the
`for p in rx` loop. -/
structure ChanState where
  producers : List (List Nat)
  buffer : List Nat
  collected : List Nat
deriving Repr, DecidableEq

/-- One step of the concurrent system: either some pending producer runs to
completion (sending its values and dropping its `Sender` clone), or the
collector receives the oldest buffered value. -/
inductive ChanStep : ChanState → ChanState → Prop
  | produce (pre post : List (List Nat)) (sends buf coll : List Nat) :
      ChanStep ⟨pre ++ sends :: post, buf, coll⟩ ⟨pre ++ post, buf ++ sends, coll⟩
  | recv (prods : List (List Nat)) (v : Nat) (buf coll : List Nat) :
      ChanStep ⟨prods, v :: buf, coll⟩ ⟨prods, buf, coll ++ [v]⟩

/-- A state from which no step is possible: all producers have dropped
their handles and the channel holds no buffered value, so `rx`'s iterator
ends. -/
def ChanDone (st : ChanState) : Prop := ∀ t, ¬ ChanStep st t

/-- The state right after the spawn loop and `drop(tx)` (line 87): the only
producer handles left are the ones held by the spawned probes; nothing has
been sent or received yet. -/
def initState (isOpen : Nat → Bool) (start_port end_port : Nat) : ChanState :=
  ⟨(spawnedPorts start_port end_port).map (fun p => (scan isOpen p).2), [], []⟩

/-! ### Basic lemmas about the embedding -/

lemma collectedPorts_eq_filter (isOpen : Nat → Bool) (s e : Nat) :
    collectedPorts isOpen s e = (spawnedPorts s e).filter isOpen := by
  unfold collectedPorts
  induction spawnedPorts s e with
  | nil => rfl
  | cons p l ih =>
    simp only [List.map_cons, List.flatten_cons, List.filter_cons]
    rw [ih]
    by_cases h : isOpen p = true
    · simp [scan, h]
    · simp [scan, h]

lemma mem_spawnedPorts {s e p : Nat} : p ∈ spawnedPorts s e ↔ s ≤ p ∧ p < e := by
  unfold spawnedPorts
  rw [List.mem_range']
  constructor
  · rintro ⟨i, hi, rfl⟩
    omega
  · rintro ⟨h1, h2⟩
    exact ⟨p - s, by omega, by omega⟩

lemma nodup_spawnedPorts (s e : Nat) : (spawnedPorts s e).Nodup := by
  unfold spawnedPorts
  exact List.nodup_range' s (e - s)

lemma nodup_collectedPorts (isOpen : Nat → Bool) (s e : Nat) :
    (collectedPorts isOpen s e).Nodup := by
  rw [collectedPorts_eq_filter]
  exact (nodup_spawnedPorts s e).filter _

lemma sortPorts_perm (l : List Nat) : (sortPorts l).Perm l :=
  List.perm_insertionSort _ l

lemma sortPorts_sorted (l : List Nat) : (sortPorts l).Sorted (· ≤ ·) :=
  List.sorted_insertionSort _ l

lemma sortPorts_eq_of_perm {l₁ l₂ : List Nat} (h : l₁.Perm l₂) :
    sortPorts l₁ = sortPorts l₂ := by
  refine List.eq_of_perm_of_sorted ?_ (sortPorts_sorted l₁) (sortPorts_sorted l₂)
  exact (sortPorts_perm l₁).trans (h.trans (sortPorts_perm l₂).symm)

/-- The multiset of port values in flight anywhere in the system:
still unsent, buffered, or already collected. -/
def chanContents (st : ChanState) : List Nat :=
  st.producers.flatten ++ st.buffer ++ st.collected

lemma chanStep_perm {a b : ChanState} (h : ChanStep a b) :
    (chanContents a).Perm (chanContents b) := by
  cases h with
  | produce pre post sends buf coll =>
    unfold chanContents
    simp only [List.flatten_append, List.flatten_cons]
    rw [← Multiset.coe_eq_coe]
    simp only [← Multiset.coe_add]
    abel
  | recv prods v buf coll =>
    unfold chanContents
    rw [← Multiset.coe_eq_coe]
    simp only [← Multiset.coe_add, ← Multiset.cons_coe, ← Multiset.singleton_add]
    abel

lemma reachable_perm {a b : ChanState}
    (h : Relation.ReflTransGen ChanStep a b) :
    (chanContents a).Perm (chanContents b) := by
  induction h with
  | refl => exact List.Perm.refl _
  | tail _ hstep ih => exact ih.trans (chanStep_perm hstep)

lemma chanDone_iff (st : ChanState) :
    ChanDone st ↔ st.producers = [] ∧ st.buffer = [] := by
  constructor
  · intro hdone
    obtain ⟨prods, buf, coll⟩ := st
    refine ⟨?_, ?_⟩
    · cases prods with
      | nil => rfl
      | cons sends post =>
        exact absurd (ChanStep.produce [] post sends buf coll) (hdone _)
    · cases buf with
      | nil => rfl
      | cons v rest =>
        exact absurd (ChanStep.recv prods v rest coll) (hdone _)
  · rintro ⟨hp, hb⟩ t hstep
    cases hstep with
    | produce pre post sends buf coll => simp at hp
    | recv prods v buf coll => simp at hb

/-! ### Claim theorems -/

/-- Claim C1: for every valid range `[start, end)` with `start < end ≤ 65535`
the scheduler spawns exactly `end - start` probe tasks, one per port of the
half-open interval (each port occurs, and occurs only once), and each probe
sends at most one port value into the channel. -/
theorem scheduler_spawns_one_probe_per_port (s e : Nat)
    (h1 : s < e) (h2 : e ≤ 65535) :
    (spawnedPorts s e).length = e - s ∧
    (∀ p, p ∈ spawnedPorts s e ↔ s ≤ p ∧ p < e) ∧
    (spawnedPorts s e).Nodup ∧
    (∀ isOpen p, ((scan isOpen p).2).length ≤ 1) := by
  refine ⟨by simp [spawnedPorts], fun p => mem_spawnedPorts, nodup_spawnedPorts s e, ?_⟩
  intro isOpen p
  unfold scan
  split <;> simp

/-- Witness for C1 at the concrete range `[1, 4)`. -/
theorem scheduler_spawns_one_probe_per_port_witness :
    (spawnedPorts 1 4).length = 4 - 1 ∧
    (∀ p, p ∈ spawnedPorts 1 4 ↔ 1 ≤ p ∧ p < 4) ∧
    (spawnedPorts 1 4).Nodup ∧
    (∀ isOpen p, ((scan isOpen p).2).length ≤ 1) :=
  scheduler_spawns_one_probe_per_port 1 4 (by decide) (by decide)

/-- Claim C2: whatever subset of probed ports reports open (any `isOpen`)
and whatever order the results arrive in (any permutation `l` of the
collected values), the printed sequence — the sorted collected list — is
strictly ascending and duplicate-free. -/
theorem final_sequence_strictly_ascending (isOpen : Nat → Bool) (s e : Nat)
    (l : List Nat) (h : l.Perm (collectedPorts isOpen s e)) :
    (sortPorts l).Sorted (· < ·) ∧ (sortPorts l).Nodup := by
  have hl : l.Nodup := h.symm.nodup (nodup_collectedPorts isOpen s e)
  have hs : (sortPorts l).Nodup := (sortPorts_perm l).symm.nodup hl
  exact ⟨(sortPorts_sorted l).lt_of_le hs, hs⟩

/-- Witness for C2: ports 2 and 4 of `[1, 6)` are open and arrive out of
order. -/
theorem final_sequence_strictly_ascending_witness :
    (sortPorts [4, 2]).Sorted (· < ·) ∧ (sortPorts [4, 2]).Nodup :=
  final_sequence_strictly_ascending (fun p => p % 2 == 0) 1 6 [4, 2] (by decide)

/-- Claim C3: the report phase prints a single blank separator line and then
one line per collected port, formatted `"<port> is open"`, in sorted order;
an empty collected set produces the blank separator and nothing else. -/
theorem reporter_line_format (out : List Nat) :
    report out = "\n" :: (sortPorts out).map (fun v => toString v ++ " is open\n") ∧
    report [] = ["\n"] := by
  refine ⟨?_, rfl⟩
  unfold report
  rfl

/-- Claim C4: a probe whose connection attempt fails writes nothing to
stdout, sends nothing into the channel, and returns no error (the `Err`
branch of `scan` is empty). -/
theorem probe_failure_silent (isOpen : Nat → Bool) (port : Nat)
    (h : isOpen port = false) :
    scan isOpen port = ([], []) := by
  unfold scan
  simp [h]

/-- Witness for C4 at a closed port. -/
theorem probe_failure_silent_witness :
    scan (fun _ => false) 80 = ([], []) :=
  probe_failure_silent (fun _ => false) 80 rfl

/-- Claim C5: after the spawn loop the scheduler's own sender is dropped, so
the initial state holds exactly one producer handle per spawned probe; from
any reachable state the receive loop is finished precisely when every
producer handle is dropped and the buffer is empty (no other exit), and at
that point the collector has received exactly the values all probes sent. -/
theorem collector_terminates_iff_exhausted (isOpen : Nat → Bool) (s e : Nat)
    (st : ChanState)
    (h : Relation.ReflTransGen ChanStep (initState isOpen s e) st) :
    (ChanDone st ↔ st.producers = [] ∧ st.buffer = []) ∧
    (initState isOpen s e).producers.length = (spawnedPorts s e).length ∧
    (ChanDone st → st.collected.Perm (collectedPorts isOpen s e)) := by
  refine ⟨chanDone_iff st, by simp [initState], ?_⟩
  intro hdone
  obtain ⟨hp, hb⟩ := (chanDone_iff st).1 hdone
  have hperm := reachable_perm h
  unfold chanContents at hperm
  simp only [initState, hp, hb, List.flatten_nil, List.append_nil, List.nil_append] at hperm
  exact (hperm.trans (List.Perm.refl _)).symm

/-- Witness for C5: the empty range `[1, 1)` gives an initial state that is
already exhausted. -/
theorem collector_terminates_iff_exhausted_witness :
    (ChanDone (initState (fun _ => false) 1 1) ↔
      (initState (fun _ => false) 1 1).producers = [] ∧
      (initState (fun _ => false) 1 1).buffer = []) ∧
    (initState (fun _ => false) 1 1).producers.length =
      (spawnedPorts 1 1).length ∧
    (ChanDone (initState (fun _ => false) 1 1) →
      (initState (fun _ => false) 1 1).collected.Perm
        (collectedPorts (fun _ => false) 1 1)) :=
  collector_terminates_iff_exhausted (fun _ => false) 1 1 _
    Relation.ReflTransGen.refl

/-- Counterexample to C6: the claim says every accepted configuration — the
default included — has an end port strictly below 65535, but when `--end`
is omitted the bpaf fallback supplies `MAX = 65535` itself, and the
fallback value never passes through `end_port_guard`. -/
theorem default_end_port_is_MAX :
    parse_end_port none = some 65535 ∧ ¬(65535 < 65535) := by
  exact ⟨rfl, by decide⟩

/-- Claim C6 (amended): an explicitly supplied end port accepted by the
guard is strictly below 65535; the default when `--end` is omitted is 65535
itself; in every accepted configuration the end port is at most 65535 and
port 65535 is never scanned, since the iterated range is half-open. -/
theorem accepted_end_port_bounds (input : Option Nat) (eport : Nat)
    (h : parse_end_port input = some eport) :
    eport ≤ 65535 ∧
    (∀ v, input = some v → eport < 65535) ∧
    (∀ s, 65535 ∉ spawnedPorts s eport) := by
  have hle : eport ≤ 65535 ∧ (∀ v, input = some v → eport < 65535) := by
    cases input with
    | none =>
      simp only [parse_end_port, Option.some.injEq] at h
      subst h
      exact ⟨le_refl _, fun v hv => by simp at hv⟩
    | some v =>
      simp only [parse_end_port] at h
      by_cases hg : end_port_guard v = true
      · rw [if_pos hg] at h
        have hv : v < MAX := of_decide_eq_true hg
        cases h
        exact ⟨Nat.le_of_lt hv, fun w hw => hv⟩
      · rw [if_neg hg] at h
        cases h
  refine ⟨hle.1, hle.2, ?_⟩
  intro s hmem
  have := mem_spawnedPorts.1 hmem
  omega

/-- Witness for C6 (amended) at the explicit value 100 and at the default. -/
theorem accepted_end_port_bounds_witness :
    (100 ≤ 65535 ∧
      (∀ v, (some 100 : Option Nat) = some v → 100 < 65535) ∧
      (∀ s, 65535 ∉ spawnedPorts s 100)) ∧
    (65535 ≤ 65535 ∧
      (∀ v, (none : Option Nat) = some v → 65535 < 65535) ∧
      (∀ s, 65535 ∉ spawnedPorts s 65535)) :=
  ⟨accepted_end_port_bounds (some 100) 100 (by decide),
   accepted_end_port_bounds none 65535 rfl⟩

/-- Counterexample to C7: the claim says the progress marker is a bare `"."`
with no newline, but the probe uses `println!(".")`, which writes the dot
followed by a newline. -/
theorem probe_marker_has_newline :
    (scan (fun _ => true) 8880).1 = [".\n"] ∧
    (scan (fun _ => true) 8880).1 ≠ ["."] := by
  exact ⟨rfl, by decide⟩

/-- Claim C7 (amended): for every discovered open port the probe writes
exactly one progress marker — a dot followed by a newline — to stdout, and
all progress markers precede the report phase in the run's output. -/
theorem probe_success_marker (isOpen : Nat → Bool) (port : Nat)
    (h : isOpen port = true) :
    (scan isOpen port).1 = [".\n"] ∧
    (∀ s e, runOutput isOpen s e =
      progressOutput isOpen s e ++ report (collectedPorts isOpen s e)) := by
  refine ⟨?_, fun s e => rfl⟩
  unfold scan
  simp [h]

/-- Witness for C7 (amended) at an open port. -/
theorem probe_success_marker_witness :
    (scan (fun _ => true) 1).1 = [".\n"] ∧
    (∀ s e, runOutput (fun _ => true) s e =
      progressOutput (fun _ => true) s e ++
        report (collectedPorts (fun _ => true) s e)) :=
  probe_success_marker (fun _ => true) 1 rfl

/-- Claim C8: when `start == end` the iterated range is empty, so no probe
is spawned, and the whole run prints only the blank separator line: no
progress markers and no `"is open"` lines. -/
theorem start_eq_end_empty_run (isOpen : Nat → Bool) (s : Nat) :
    spawnedPorts s s = [] ∧ runOutput isOpen s s = ["\n"] := by
  have hsp : spawnedPorts s s = [] := by
    simp [spawnedPorts]
  refine ⟨hsp, ?_⟩
  simp [runOutput, progressOutput, report, collectedPorts, sortPorts, hsp]

/-- Claim C9: with a fixed set of listening ports, the final sorted
sequence is the same for any two arrival orders of the probe results, so
two runs over the same range and address print the same report. -/
theorem scan_run_deterministic (isOpen : Nat → Bool) (s e : Nat)
    (l₁ l₂ : List Nat)
    (h₁ : l₁.Perm (collectedPorts isOpen s e))
    (h₂ : l₂.Perm (collectedPorts isOpen s e)) :
    sortPorts l₁ = sortPorts l₂ :=
  sortPorts_eq_of_perm (h₁.trans h₂.symm)

/-- Witness for C9: two arrival orders of the open ports of `[1, 4)`. -/
theorem scan_run_deterministic_witness :
    sortPorts [3, 2] = sortPorts [2, 3] :=
  scan_run_deterministic (fun p => 2 ≤ p) 1 4 [3, 2] [2, 3]
    (by decide) (by decide)

/-- Claim C10: every port in the printed report lies in the requested
half-open range `[start_port, end_port)`: only probed ports can be
reported open. -/
theorem reported_ports_within_range (isOpen : Nat → Bool) (s e : Nat)
    (l : List Nat) (h : l.Perm (collectedPorts isOpen s e))
    (p : Nat) (hp : p ∈ sortPorts l) :
    s ≤ p ∧ p < e := by
  have hmem : p ∈ collectedPorts isOpen s e :=
    h.mem_iff.1 ((sortPorts_perm l).mem_iff.1 hp)
  rw [collectedPorts_eq_filter] at hmem
  exact mem_spawnedPorts.1 (List.mem_of_mem_filter hmem)

/-- Witness for C10: port 2, reported from a scan of `[1, 4)`. -/
theorem reported_ports_within_range_witness : 1 ≤ 2 ∧ 2 < 4 :=
  reported_ports_within_range (fun p => p == 2) 1 4 [2]
    (by decide) 2 (by decide)

end PortScanner

